import Mathlib

/-!
Verification development for the job-watcher repository: a shallow embedding of
the filter pipeline (`job_watcher.py`), the posted-recency predicate, ranker and
dedupe store (`builtin_job_bot.py`, with the `_dummy` variant where it differs),
together with theorems settling the specification claims.

Modelling conventions:
* Python strings are Lean `String`s; character classes (`\w`, `\s`, `\d`) follow
  Python's ASCII behaviour.
* The two hard-coded experience regexes and the `(\d+)\s+day` / `(\d+)\s+week`
  searches are implemented as explicit scanners with the same match semantics.
* Configuration-supplied regex patterns are matched through an abstract
  `search : String → String → Bool` parameter standing for Python's `re.search`;
  `searchLit` instantiates it for literal patterns (case-insensitive substring).
* Timestamps are integers (seconds); `timedelta(days = d)` is `d * 86400`.
-/

namespace JobWatcher

/-- Python regex `\w` (ASCII): letters, digits, underscore. -/
def isWordChar (c : Char) : Bool := c.isAlphanum || c == '_'

/-- Python regex `\s` (ASCII): space, tab, newline, carriage return, vtab, formfeed. -/
def isSpaceChar (c : Char) : Bool :=
  c == ' ' || c == '\t' || c == '\n' || c == '\r' || c == '\x0b' || c == '\x0c'

def dropSpaces (l : List Char) : List Char := l.dropWhile isSpaceChar

def lowerList (l : List Char) : List Char := l.map Char.toLower

/-- Python `needle in hay` (substring containment). -/
def listContains (needle : List Char) : List Char → Bool
  | [] => needle.isEmpty
  | c :: cs => needle.isPrefixOf (c :: cs) || listContains needle cs

/-- Python `needle in hay` on strings. -/
def containsSub (hay needle : String) : Bool := listContains needle.data hay.data

/-- Python `str.replace` (all non-overlapping occurrences, left to right);
`p :: ps` is the non-empty pattern.  The `Nat` argument is recursion fuel,
initially the length of the subject list: every step consumes one unit of fuel
and at least one character, so fuel never runs out on a real call. -/
def replaceList (p : Char) (ps rep : List Char) : Nat → List Char → List Char
  | _, [] => []
  | 0, l => l
  | fuel + 1, c :: cs =>
    if (p :: ps).isPrefixOf (c :: cs) then
      rep ++ replaceList p ps rep fuel (cs.drop ps.length)
    else c :: replaceList p ps rep fuel cs

/-- Python `s.replace(pat, rep)`; an empty pattern does not occur in this code base. -/
def pyReplace (s pat rep : String) : String :=
  match pat.data with
  | [] => s
  | p :: ps => ⟨replaceList p ps rep.data s.data.length s.data⟩

def stripChars (l : List Char) : List Char :=
  ((l.dropWhile isSpaceChar).reverse.dropWhile isSpaceChar).reverse

/-- Python `str.strip()` (whitespace from both ends). -/
def pyStrip (s : String) : String := ⟨stripChars s.data⟩

/-- Python `str.lower()` (ASCII). -/
def pyLower (s : String) : String := ⟨lowerList s.data⟩

/-- Stand-in instance of Python `re.search(p, t, re.I)` for literal (regex-free)
patterns: case-insensitive substring containment. -/
def searchLit (p t : String) : Bool := listContains (lowerList p.data) (lowerList t.data)

/-- Python string comparison: lexicographic by code point. -/
def listLE : List Char → List Char → Bool
  | [], _ => true
  | _ :: _, [] => false
  | a :: as, b :: bs =>
    if a.toNat < b.toNat then true
    else if a = b then listLE as bs
    else false

/-- Python `s <= t` on strings. -/
def strLE (s t : String) : Bool := listLE s.data t.data

/-- `strLE` as a relation, for sorting. -/
def strLe (s t : String) : Prop := strLE s t = true

instance : DecidableRel strLe := fun s t => instDecidableEqBool (strLE s t) true

theorem char_eq_of_toNat_eq {a b : Char} (h : a.toNat = b.toNat) : a = b :=
  Char.ext (UInt32.ext h)

theorem listLE_cons_iff {x y : Char} {xs ys : List Char} :
    listLE (x :: xs) (y :: ys) = true ↔
      x.toNat < y.toNat ∨ (x = y ∧ listLE xs ys = true) := by
  simp only [listLE]
  by_cases h1 : x.toNat < y.toNat
  · simp [h1]
  · by_cases h2 : x = y <;> simp [h1, h2]

theorem listLE_total (a b : List Char) : listLE a b = true ∨ listLE b a = true := by
  induction a generalizing b with
  | nil => left; rfl
  | cons x xs ih =>
    cases b with
    | nil => right; rfl
    | cons y ys =>
      by_cases hxy : x.toNat < y.toNat
      · left; exact listLE_cons_iff.mpr (Or.inl hxy)
      · by_cases hyx : y.toNat < x.toNat
        · right; exact listLE_cons_iff.mpr (Or.inl hyx)
        · have hx : x = y := char_eq_of_toNat_eq (by omega)
          subst hx
          rcases ih ys with h | h
          · left; exact listLE_cons_iff.mpr (Or.inr ⟨rfl, h⟩)
          · right; exact listLE_cons_iff.mpr (Or.inr ⟨rfl, h⟩)

theorem listLE_trans {a b c : List Char} (hab : listLE a b = true)
    (hbc : listLE b c = true) : listLE a c = true := by
  induction a generalizing b c with
  | nil => rfl
  | cons x xs ih =>
    cases b with
    | nil => simp [listLE] at hab
    | cons y ys =>
      cases c with
      | nil => simp [listLE] at hbc
      | cons z zs =>
        rcases listLE_cons_iff.mp hab with h1 | ⟨h1, h1'⟩ <;>
          rcases listLE_cons_iff.mp hbc with h2 | ⟨h2, h2'⟩
        · exact listLE_cons_iff.mpr (Or.inl (by omega))
        · subst h2; exact listLE_cons_iff.mpr (Or.inl h1)
        · subst h1; exact listLE_cons_iff.mpr (Or.inl h2)
        · subst h1; subst h2
          exact listLE_cons_iff.mpr (Or.inr ⟨rfl, ih h1' h2'⟩)

theorem listLE_antisymm {a b : List Char} (hab : listLE a b = true)
    (hba : listLE b a = true) : a = b := by
  induction a generalizing b with
  | nil =>
    cases b with
    | nil => rfl
    | cons y ys => simp [listLE] at hba
  | cons x xs ih =>
    cases b with
    | nil => simp [listLE] at hab
    | cons y ys =>
      rcases listLE_cons_iff.mp hab with h1 | ⟨h1, h1'⟩ <;>
        rcases listLE_cons_iff.mp hba with h2 | ⟨h2, h2'⟩
      · omega
      · subst h2; omega
      · subst h1; omega
      · subst h1
        rw [ih h1' h2']

instance : IsTrans String strLe :=
  ⟨fun _ _ _ hab hbc => listLE_trans hab hbc⟩

instance : IsTotal String strLe :=
  ⟨fun a b => listLE_total a.data b.data⟩

instance : IsAntisymm String strLe :=
  ⟨fun _ _ hab hba => String.ext (listLE_antisymm hab hba)⟩

/-! ### The two experience regexes of `job_watcher.py`

`_exp_single = \b(\d{1,2})\s*(?:\+|plus)?\s*(?:years?|yrs?)\b` and
`_exp_range  = \b(\d{1,2})\s*-\s*(\d{1,2})\s*(?:years?|yrs?)\b`, both `re.I`,
used through `findall`.  The scanners below replicate the engine: positions are
tried left to right, `\d{1,2}` is greedy with backtracking, the optional
`+`/`plus` and the `years/year/yrs/yr` alternation are tried in regex order, and
`\b` is the ASCII word boundary.  (Every capture of either regex starts at a
digit preceded by a non-word character and ends inside the year token, so
scanning all positions yields exactly the `findall` captures.) -/

/-- Greedy candidates for `\d{1,2}` at the head of `l`: the two-digit take first,
then the one-digit take, with the rest of the input. -/
def digitTakes : List Char → List (Nat × List Char)
  | a :: b :: rest =>
    if a.isDigit && b.isDigit then
      [((a.toNat - 48) * 10 + (b.toNat - 48), rest), (a.toNat - 48, b :: rest)]
    else if a.isDigit then [(a.toNat - 48, b :: rest)] else []
  | [a] => if a.isDigit then [(a.toNat - 48, [])] else []
  | [] => []

/-- Case-insensitively strip the (lowercase) token `tok` from the front of `l`. -/
def ciStrip (tok l : List Char) : Option (List Char) :=
  if (l.take tok.length).map Char.toLower == tok then
    if tok.length ≤ l.length then some (l.drop tok.length) else none
  else none

/-- A word boundary holds before `l`. -/
def boundaryOk : List Char → Bool
  | [] => true
  | c :: _ => !isWordChar c

/-- `(?:years?|yrs?)\b`, alternatives in regex backtracking order. -/
def matchYears (l : List Char) : Option (List Char) :=
  [['y', 'e', 'a', 'r', 's'], ['y', 'e', 'a', 'r'], ['y', 'r', 's'], ['y', 'r']].findSome?
    fun tok =>
      match ciStrip tok l with
      | some r => if boundaryOk r then some r else none
      | none => none

/-- `(?:\+|plus)?` in backtracking order: consume `+` or `plus` if present, then
the empty alternative. -/
def plusBranches (l : List Char) : List (List Char) :=
  match l with
  | '+' :: r => [r, '+' :: r]
  | _ =>
    match ciStrip ['p', 'l', 'u', 's'] l with
    | some r => [r, l]
    | none => [l]

/-- Try `_exp_single` at the current position (`prevWord`: the preceding
character is a word character); returns the captured number. -/
def matchSingleAt (prevWord : Bool) (l : List Char) : Option Nat :=
  if prevWord then none
  else
    (digitTakes l).findSome? fun nr =>
      let r2 := dropSpaces nr.2
      (plusBranches r2).findSome? fun r3 =>
        match matchYears (dropSpaces r3) with
        | some _ => some nr.1
        | none => none

/-- Try `_exp_range` at the current position; returns both captured numbers. -/
def matchRangeAt (prevWord : Bool) (l : List Char) : Option (Nat × Nat) :=
  if prevWord then none
  else
    (digitTakes l).findSome? fun ar =>
      match dropSpaces ar.2 with
      | '-' :: r3 =>
        (digitTakes (dropSpaces r3)).findSome? fun br =>
          match matchYears (dropSpaces br.2) with
          | some _ => some (ar.1, br.1)
          | none => none
      | _ => none

/-- `_exp_single.findall`: captured numbers, left to right. -/
def scanSingles : Bool → List Char → List Nat
  | _, [] => []
  | prevW, c :: cs =>
    match matchSingleAt prevW (c :: cs) with
    | some n => n :: scanSingles (isWordChar c) cs
    | none => scanSingles (isWordChar c) cs

/-- `_exp_range.findall`: captured pairs, left to right. -/
def scanRanges : Bool → List Char → List (Nat × Nat)
  | _, [] => []
  | prevW, c :: cs =>
    match matchRangeAt prevW (c :: cs) with
    | some ab => ab :: scanRanges (isWordChar c) cs
    | none => scanRanges (isWordChar c) cs

/-- `mx = v if mx is None or v > mx else mx`. -/
def optMax (mx : Option Nat) (v : Nat) : Option Nat :=
  match mx with
  | none => some v
  | some m => some (max m v)

/-- `max_years_mentioned` from `job_watcher.py`. -/
def max_years_mentioned (text : String) : Option Nat :=
  if text = "" then none
  else
    let l := text.data
    let mx := (scanRanges false l).foldl (fun mx ab => optMax mx (max ab.1 ab.2)) none
    (scanSingles false l).foldl optMax mx

/-! ### Filter pipeline of `job_watcher.py` -/

/-- The `filters:` section of `config.yaml` consulted by the pipeline
(`conf.get("filters", {})`); absent keys default as in the source. -/
structure Filters where
  titles_must_include : List String := []
  titles_must_include_all : List String := []
  titles_must_not : List String := []
  exp_max_years : Nat := 5
  exp_must_not_patterns : List String := []
  locations_must_not : List String := []
  locations_allow_any : List String := []

/-- The `keywords:` section: `any` is required, `must_not` defaults to `[]`. -/
structure Keywords where
  any_pats : List String
  must_not : List String := []

structure Conf where
  filters : Filters := {}
  keywords : Keywords

/-- A normalized posting as consumed by `passes_all_filters`. -/
structure JWJob where
  title : String
  desc : String
  location : String := ""

/-- `normalize` from `job_watcher.py`. -/
def normalize (t : String) : String := pyLower t

/-- `matches_keywords(conf, title, desc)`; `search` models `re.search(p, ·, re.I)`. -/
def matches_keywords (search : String → String → Bool) (kw : Keywords)
    (title desc : String) : Bool :=
  let t := normalize title ++ "\n" ++ normalize desc
  if kw.must_not.any fun p => search p t then false
  else kw.any_pats.any fun p => search p t

/-- `title_includes(conf, title)`: the `titles_must_include` (any) and
`titles_must_include_all` (all) gates, both evaluated on the title alone. -/
def title_includes (search : String → String → Bool) (flt : Filters)
    (title : String) : Bool :=
  if !flt.titles_must_include.isEmpty && !(flt.titles_must_include.any fun p => search p title)
    then false
  else if !flt.titles_must_include_all.isEmpty
      && !(flt.titles_must_include_all.all fun p => search p title)
    then false
  else true

/-- `title_allowed(conf, title)`: the `titles_must_not` gate. -/
def title_allowed (search : String → String → Bool) (flt : Filters)
    (title : String) : Bool :=
  !(flt.titles_must_not.any fun p => search p (pyLower title))

/-- `experience_allowed(conf, title, desc)`. -/
def experience_allowed (search : String → String → Bool) (flt : Filters)
    (title desc : String) : Bool :=
  let text := title ++ "\n" ++ desc
  if flt.exp_must_not_patterns.any fun p => search p text then false
  else
    match max_years_mentioned text with
    | none => true
    | some mx => mx ≤ flt.exp_max_years

/-- `_normalize_location_tokens(loc)`. -/
def normalize_location_tokens (loc : String) : String :=
  if loc = "" then ""
  else
    let l := pyLower loc
    let l := pyReplace l "united states" "us"
    let l := pyReplace l "u.s." "us"
    let l := pyReplace l "usa" "us"
    let l := pyReplace l "remote (us)" "remote us"
    pyReplace l "us-remote" "remote us"

/-- The deny/allow matching of `location_allowed` on an (already rewritten)
location string. -/
def loc_check (flt : Filters) (loc : String) : Bool :=
  if flt.locations_must_not.any fun bad => containsSub loc (pyLower bad) then false
  else if flt.locations_allow_any.isEmpty then true
  else flt.locations_allow_any.any fun a => containsSub loc (pyLower a)

/-- `location_allowed(conf, location)`. -/
def location_allowed (flt : Filters) (location : String) : Bool :=
  loc_check flt (normalize_location_tokens (pyLower (pyStrip location)))

/-- `passes_all_filters(conf, job)`: the short-circuiting predicate chain. -/
def passes_all_filters (search : String → String → Bool) (conf : Conf)
    (job : JWJob) : Bool :=
  if !title_allowed search conf.filters job.title then false
  else if !title_includes search conf.filters job.title then false
  else if !experience_allowed search conf.filters job.title job.desc then false
  else if !location_allowed conf.filters job.location then false
  else matches_keywords search conf.keywords job.title job.desc

/-! ### `builtin_job_bot.py`: data model, recency predicate, ranker -/

/-- The `Job` dataclass. -/
structure Job where
  title : String
  company : String
  location : String
  posted : String
  url : String
  matched_on : String
deriving DecidableEq

/-- `norm_company(name) = (name or "").strip().lower()`. -/
def norm_company (name : String) : String := pyLower (pyStrip name)

/-- Maximal run of digits at the head of `l`, as a number, with the rest. -/
def digitRun : List Char → Nat → Nat × List Char
  | [], acc => (acc, [])
  | c :: cs, acc =>
    if c.isDigit then digitRun cs (acc * 10 + (c.toNat - 48)) else (acc, c :: cs)

/-- First (leftmost) match of `(\d+)\s+word` in `l`, returning the number:
the semantics of `re.search(r"(\d+)\s+day", t)` / `...week` in the source. -/
def findNumBefore (word : List Char) : List Char → Option Nat
  | [] => none
  | c :: cs =>
    if c.isDigit then
      let nr := digitRun (c :: cs) 0
      let hasSpace := match nr.2 with
        | r :: _ => isSpaceChar r
        | [] => false
      if hasSpace && word.isPrefixOf (dropSpaces nr.2) then some nr.1
      else findNumBefore word cs
    else findNumBefore word cs

/-- `looks_recent(posted_text)` from `builtin_job_bot.py`, with the module-level
`POSTED_WITHIN_DAYS` threshold made explicit. -/
def looks_recent (postedWithinDays : Int) (posted_text : String) : Bool :=
  if postedWithinDays ≤ 0 then true
  else
    let t := pyLower (pyStrip posted_text)
    if t = "" || containsSub t "today" || containsSub t "hour" then true
    else
      match findNumBefore "day".data t.data with
      | some n => (n : Int) ≤ postedWithinDays
      | none =>
        match findNumBefore "week".data t.data with
        | some n => ((n : Int) * 7) ≤ postedWithinDays
        | none => true

/-- `looks_recent(posted_text)` from `builtin_job_bot_dummy.py`: after the same
parsing, every fall-through path (including a parsed day count above the
threshold) ends in `return True  # be lenient`. -/
def looks_recent_dummy (postedWithinDays : Int) (posted_text : String) : Bool :=
  if postedWithinDays ≤ 0 then true
  else
    let t := pyLower (pyStrip posted_text)
    if t = "" || containsSub t "today" || containsSub t "hour" then true
    else
      let dayOk : Bool :=
        match findNumBefore "day".data t.data with
        | some n => (n : Int) ≤ postedWithinDays
        | none => false
      let weekOk : Bool :=
        match findNumBefore "week".data t.data with
        | some n => ((n : Int) * 7) ≤ postedWithinDays
        | none => false
      if dayOk then true
      else if weekOk then true
      else true

/-- The relative-time day count exactly as the specification words it
(`today`/`hour` → 0, `N day(s)` → N, `N week(s)` → 7N, empty or unparseable →
none, i.e. treated as recent).  Comparison definition, written from the spec,
for refinement against `looks_recent`. -/
def spec_day_count (posted_text : String) : Option Int :=
  let t := pyLower (pyStrip posted_text)
  if t = "" then none
  else if containsSub t "today" || containsSub t "hour" then some 0
  else
    match findNumBefore "day".data t.data with
    | some n => some (n : Int)
    | none =>
      match findNumBefore "week".data t.data with
      | some n => some ((n : Int) * 7)
      | none => none

/-- `sort_key(j)`: recency score and lowercase title. -/
def sort_key (j : Job) : Nat × String :=
  let p := pyLower j.posted
  let score :=
    if containsSub p "hour" || containsSub p "today" then 0
    else if containsSub p "day" then
      match findNumBefore "day".data p.data with
      | some n => n
      | none => 3
    else if containsSub p "week" then
      7 * (match findNumBefore "week".data p.data with
           | some n => n
           | none => 1)
    else 999
  (score, pyLower j.title)

/-- Python tuple `≤` on the sort keys, as a Boolean relation for the stable sort
performed by `sorted(..., key=sort_key)`. -/
def rankLE (a b : Job) : Bool :=
  (sort_key a).1 < (sort_key b).1
    || ((sort_key a).1 == (sort_key b).1 && strLE (sort_key a).2 (sort_key b).2)

def rankLe (a b : Job) : Prop := rankLE a b = true

instance : DecidableRel rankLe := fun a b => instDecidableEqBool (rankLE a b) true

/-- The final `sorted(all_jobs.values(), key=sort_key)` of `run_searches`:
a stable sort by `sort_key`. -/
def rank_jobs (jobs : List Job) : List Job := List.insertionSort rankLe jobs

/-- The recency score exactly as the specification words it (`today`/`hour` → 0,
`N day(s)` → N, `N week(s)` → 7N, unparseable or empty → 999).  Comparison
definition, written from the spec, for refinement against `sort_key`. -/
def spec_recency_score (posted : String) : Nat :=
  let p := pyLower posted
  if containsSub p "hour" || containsSub p "today" then 0
  else
    match findNumBefore "day".data p.data with
    | some n => n
    | none =>
      match findNumBefore "week".data p.data with
      | some n => 7 * n
      | none => 999

/-- The spec's sort key comparison (comparison definition). -/
def specRankLe (a b : Job) : Prop :=
  (spec_recency_score a.posted < spec_recency_score b.posted
      || (spec_recency_score a.posted == spec_recency_score b.posted
          && strLE (pyLower a.title) (pyLower b.title))) = true

instance : DecidableRel specRankLe := fun _ _ => instDecidableEqBool _ true

/-- Ranking by the specification's score (comparison definition). -/
def spec_rank_jobs (jobs : List Job) : List Job :=
  List.insertionSort specRankLe jobs

/-! ### Flat-file dedupe backend (`STATE_FILE` mode)

The file abstraction is line-oriented: `save_seen_file` writes one URL per line
and `load_seen_file` iterates the lines of the file, so the persisted state is
modelled as the list of lines. -/

/-- `load_seen_file()`: `{line.strip() for line in f if line.strip()}`. -/
def load_seen_file (lines : List String) : Finset String :=
  ((lines.map pyStrip).filter fun s => s ≠ "").toFinset

/-- `save_seen_file(seen)`: every URL of the set on its own line, sorted
(Python string order, i.e. by code point). -/
def save_seen_file (seen : Finset String) : List String :=
  seen.sort strLe

/-- The flat-backend `mark_notified`: `seen.update(j.url for j in fresh_jobs)`. -/
def mark_notified_file (seen : Finset String) (jobs : List Job) : Finset String :=
  seen ∪ (jobs.map Job.url).toFinset

/-- The flat-backend `is_new` filter: `[j for j in jobs if j.url not in seen]`. -/
def filter_new_jobs_file (seen : Finset String) (jobs : List Job) : List Job :=
  jobs.filter fun j => j.url ∉ seen

/-! ### SQLite dedupe backend

Rows of `sent_jobs` (primary key `url`) and `sent_companies` (primary key
`company_norm`); timestamps are seconds, `timedelta(days=d)` is `d * 86400`. -/

structure Row where
  url : String
  company_norm : String
  company_raw : String
  title : String
  sent_at : Int
deriving DecidableEq

structure DBState where
  sent_jobs : List Row := []
  sent_companies : List (String × Int) := []
deriving DecidableEq

def lookupCompany (l : List (String × Int)) (c : String) : Option Int :=
  (l.find? fun kv => kv.1 == c).map fun kv => kv.2

/-- `db_already_sent_url(con, url)`. -/
def db_already_sent_url (db : DBState) (url : String) : Bool :=
  db.sent_jobs.any fun r => r.url == url

/-- `db_company_recently_sent(con, company_norm_val, days)`. -/
def db_company_recently_sent (db : DBState) (c : String) (days : Int)
    (now : Int) : Bool :=
  if c == "" then false
  else
    match lookupCompany db.sent_companies c with
    | none => false
    | some last => now - last < days * 86400

/-- `INSERT OR IGNORE INTO sent_jobs ...`. -/
def insertOrIgnoreJob (rows : List Row) (r : Row) : List Row :=
  if rows.any fun x => x.url == r.url then rows else rows ++ [r]

/-- `INSERT INTO sent_companies ... ON CONFLICT(company_norm) DO UPDATE`:
keyed update of the row with primary key `c`, inserting it when absent. -/
def upsertCompany : List (String × Int) → String → Int → List (String × Int)
  | [], c, t => [(c, t)]
  | kv :: tl, c, t => if kv.1 == c then (c, t) :: tl else kv :: upsertCompany tl c t

/-- The two `con.execute` statements of `db_mark_sent` for one job. -/
def exec_mark_one (d : DBState) (now : Int) (j : Job) : DBState :=
  let c := norm_company j.company
  let d :=
    { d with
      sent_jobs := insertOrIgnoreJob d.sent_jobs
        { url := j.url, company_norm := c, company_raw := j.company,
          title := j.title, sent_at := now } }
  if c == "" then d
  else { d with sent_companies := upsertCompany d.sent_companies c now }

/-- `db_mark_sent(con, jobs)` as a pure state transformer (loop then commit). -/
def db_mark_sent (db : DBState) (jobs : List Job) (now : Int) : DBState :=
  jobs.foldl (fun d j => exec_mark_one d now j) db

/-- The per-job acceptance test inside `filter_new_jobs_sqlite` — the relational
backend's `is_new`.  `allowUnknown` is `ALLOW_UNKNOWN_COMPANY`, `days` is
`SQUELCH_COMPANY_DAYS`. -/
def is_new_sqlite (allowUnknown : Bool) (days : Int) (db : DBState) (now : Int)
    (j : Job) : Bool :=
  if db_already_sent_url db j.url then false
  else
    let c := norm_company j.company
    if c == "" && allowUnknown then true
    else if db_company_recently_sent db c days now then false
    else true

/-- `filter_new_jobs_sqlite(con, jobs)`. -/
def filter_new_jobs_sqlite (allowUnknown : Bool) (days : Int) (db : DBState)
    (now : Int) (jobs : List Job) : List Job :=
  jobs.filter (is_new_sqlite allowUnknown days db now)

/-! ### The SQLite connection as a transaction

Python's `sqlite3` runs the `execute`d DML inside an implicit transaction that
becomes durable only at `con.commit()`: the connection holds a persisted state
(what a crash would leave behind) and a pending state (what the statements so
far have built). -/

structure Conn where
  persisted : DBState
  pending : DBState

def db_commit (c : Conn) : Conn := { c with persisted := c.pending }

/-- `db_mark_sent` on a connection: all executes, then one commit. -/
def db_mark_sent_conn (c : Conn) (jobs : List Job) (now : Int) : Conn :=
  db_commit { c with pending := db_mark_sent c.pending jobs now }

/-- `db_mark_sent` interrupted after the first `k` jobs, before the commit. -/
def db_mark_sent_crash (c : Conn) (jobs : List Job) (now : Int) (k : Nat) : Conn :=
  { c with pending := db_mark_sent c.pending (jobs.take k) now }

/-! ## Claim theorems -/

/-- C1 (counterexample): with an empty `any` keyword pattern list and an empty
`must_not` list — so no must-not pattern matches — `matches_keywords`, and with
it the whole `passes_all_filters` chain, rejects the posting.  This refutes the
claim that an empty must-include/any list is accept-by-default and never a
cause of rejection. -/
theorem C1_counterexample :
    (({ any_pats := [], must_not := [] } : Keywords).must_not.any fun p =>
        searchLit p (normalize "Engineer" ++ "\n" ++ normalize "C# dev")) = false
    ∧ matches_keywords searchLit { any_pats := [], must_not := [] } "Engineer" "C# dev" = false
    ∧ passes_all_filters searchLit { keywords := { any_pats := [] } }
        { title := "Engineer", desc := "C# dev" } = false :=
  ⟨rfl, by decide, by decide⟩

/-- C1 (amended): when the configured "any" keyword pattern list is empty,
`matches_keywords` — and with it `passes_all_filters`, i.e. classification —
rejects every posting, whatever the must-not list and the pattern matcher: an
empty "any" list is reject-by-default in this code. -/
theorem C1_empty_any_rejects (search : String → String → Bool) (conf : Conf)
    (job : JWJob) (h : conf.keywords.any_pats = []) :
    matches_keywords search conf.keywords job.title job.desc = false
    ∧ passes_all_filters search conf job = false := by
  have hm : matches_keywords search conf.keywords job.title job.desc = false := by
    simp [matches_keywords, h]
  refine ⟨hm, ?_⟩
  simp [passes_all_filters, hm]

/-- Witness for `C1_empty_any_rejects` at a concrete configuration and posting. -/
theorem C1_witness :
    matches_keywords searchLit { any_pats := [] } "Data Engineer" "SQL" = false
    ∧ passes_all_filters searchLit { keywords := { any_pats := [] } }
        { title := "Data Engineer", desc := "SQL" } = false :=
  C1_empty_any_rejects searchLit { keywords := { any_pats := [] } }
    { title := "Data Engineer", desc := "SQL" } rfl

/-- C5: `experience_allowed` rejects exactly when a configured hard-negative
pattern matches title++newline++desc or the maximum year mentioned (over the
single and range grammars) exceeds the ceiling; it accepts when no year is
mentioned.  Concretely, at ceiling 5: "5-9 years experience required" is
rejected (maximum 9), "3 years of C#" is accepted, and text with no year
mention is accepted. -/
theorem C5_experience_bound :
    (∀ (search : String → String → Bool) (flt : Filters) (title desc : String),
      experience_allowed search flt title desc = false ↔
        ((flt.exp_must_not_patterns.any fun p => search p (title ++ "\n" ++ desc)) = true
          ∨ ∃ m, max_years_mentioned (title ++ "\n" ++ desc) = some m
              ∧ flt.exp_max_years < m))
    ∧ max_years_mentioned ("5-9 years experience required" ++ "\n" ++ "") = some 9
    ∧ experience_allowed searchLit { exp_max_years := 5 } "5-9 years experience required" "" = false
    ∧ max_years_mentioned ("3 years of C#" ++ "\n" ++ "") = some 3
    ∧ experience_allowed searchLit { exp_max_years := 5 } "3 years of C#" "" = true
    ∧ max_years_mentioned ("Collaborative team, strong mentorship" ++ "\n" ++ "") = none
    ∧ experience_allowed searchLit { exp_max_years := 5 }
        "Collaborative team, strong mentorship" "" = true := by
  refine ⟨?_, by decide, by decide, by decide, by decide, by decide, by decide⟩
  intro search flt title desc
  unfold experience_allowed
  by_cases hmn : (flt.exp_must_not_patterns.any fun p => search p (title ++ "\n" ++ desc)) = true
  · simp [hmn]
  · cases hmx : max_years_mentioned (title ++ "\n" ++ desc) with
    | none => simp [hmn, hmx]
    | some m =>
      simp only [Bool.not_eq_true] at hmn
      simp [hmn, hmx]

/-- C6: `location_allowed` rejects exactly when some must-not token is a
substring of the normalized location — the deny check has precedence over the
allow list — and otherwise accepts iff the allow list is empty (accept by
default) or some allow token matches.  Concretely, "Berlin, Germany" with deny
["germany"] and allow ["remote"] is rejected. -/
theorem C6_location_filter :
    (∀ (flt : Filters) (location : String),
      location_allowed flt location =
        (!(flt.locations_must_not.any fun bad =>
              containsSub (normalize_location_tokens (pyLower (pyStrip location))) (pyLower bad))
          && (flt.locations_allow_any.isEmpty
              || flt.locations_allow_any.any fun a =>
                  containsSub (normalize_location_tokens (pyLower (pyStrip location))) (pyLower a))))
    ∧ (∀ (flt : Filters) (location : String),
        (flt.locations_must_not.any fun bad =>
            containsSub (normalize_location_tokens (pyLower (pyStrip location))) (pyLower bad)) = true →
        location_allowed flt location = false)
    ∧ (∀ (flt : Filters) (location : String),
        flt.locations_allow_any = [] →
        (flt.locations_must_not.any fun bad =>
            containsSub (normalize_location_tokens (pyLower (pyStrip location))) (pyLower bad)) = false →
        location_allowed flt location = true)
    ∧ location_allowed { locations_must_not := ["germany"], locations_allow_any := ["remote"] }
        "Berlin, Germany" = false := by
  have hc : ∀ (flt : Filters) (location : String),
      location_allowed flt location =
        (!(flt.locations_must_not.any fun bad =>
              containsSub (normalize_location_tokens (pyLower (pyStrip location))) (pyLower bad))
          && (flt.locations_allow_any.isEmpty
              || flt.locations_allow_any.any fun a =>
                  containsSub (normalize_location_tokens (pyLower (pyStrip location))) (pyLower a))) := by
    intro flt location
    unfold location_allowed loc_check
    by_cases hd : (flt.locations_must_not.any fun bad =>
        containsSub (normalize_location_tokens (pyLower (pyStrip location))) (pyLower bad)) = true
    · simp [hd]
    · simp only [Bool.not_eq_true] at hd
      by_cases he : flt.locations_allow_any.isEmpty <;> simp [hd, he]
  refine ⟨hc, fun flt location hd => ?_, fun flt location he hd => ?_, by decide⟩
  · rw [hc, hd]
    rfl
  · rw [hc, hd, he]
    rfl

/-- Witness for the hypothesised parts of `C6_location_filter`: deny match
forces rejection; with no allow list and no deny match the location passes. -/
theorem C6_witness :
    location_allowed { locations_must_not := ["germany"], locations_allow_any := ["remote"] }
      "Munich, Germany" = false
    ∧ location_allowed { locations_must_not := ["onsite"] } "Remote, EU" = true :=
  ⟨C6_location_filter.2.1 _ "Munich, Germany" (by decide),
   C6_location_filter.2.2.1 _ "Remote, EU" rfl (by decide)⟩

/-- C10: the location predicate consults only the rewritten lowercased
location: `location_allowed` factors through `normalize_location_tokens`, which
sends "united states", "u.s." and "usa" to "us" and "remote (us)", "us-remote"
to "remote us"; consequently "Dallas, USA" with deny ["usa"] and no allow list
is accepted, because the rewritten "dallas, us" does not contain "usa". -/
theorem C10_location_rewrites :
    (∀ (flt : Filters) (location : String),
      location_allowed flt location =
        loc_check flt (normalize_location_tokens (pyLower (pyStrip location))))
    ∧ normalize_location_tokens "united states" = "us"
    ∧ normalize_location_tokens "u.s." = "us"
    ∧ normalize_location_tokens "usa" = "us"
    ∧ normalize_location_tokens "remote (us)" = "remote us"
    ∧ normalize_location_tokens "us-remote" = "remote us"
    ∧ normalize_location_tokens (pyLower (pyStrip "Dallas, USA")) = "dallas, us"
    ∧ containsSub "dallas, us" "usa" = false
    ∧ location_allowed { locations_must_not := ["usa"] } "Dallas, USA" = true :=
  ⟨fun _ _ => rfl, by decide, by decide, by decide, by decide, by decide, by decide,
   by decide, by decide⟩

/-- Characterization of `title_includes` as a Boolean combination: the "any"
list when non-empty must hit the title, and the "all" list when non-empty must
be contained in the title. -/
theorem title_includes_eq (search : String → String → Bool) (flt : Filters)
    (title : String) :
    title_includes search flt title =
      ((flt.titles_must_include.isEmpty
          || flt.titles_must_include.any fun p => search p title)
        && (flt.titles_must_include_all.isEmpty
          || flt.titles_must_include_all.all fun p => search p title)) := by
  unfold title_includes
  by_cases h1 : flt.titles_must_include.isEmpty <;>
    by_cases h3 : (flt.titles_must_include.any fun p => search p title) = true <;>
      by_cases h2 : flt.titles_must_include_all.isEmpty <;>
        by_cases h4 : (flt.titles_must_include_all.all fun p => search p title) = true <;>
          simp [h1, h2, h3, h4]

/-- C7 (counterexample): with `titles_must_include_all = ["c#"]`, the must-all
pattern occurs in the combined title-and-description text and every other gate
of the chain accepts, yet the posting is rejected, because `title_includes`
searches the title alone.  This refutes the claim that the tech-stack gate is
evaluated over the combined text. -/
theorem C7_counterexample :
    searchLit "c#" ("Engineer" ++ "\n" ++ "Needs C# experience") = true
    ∧ title_allowed searchLit { titles_must_include_all := ["c#"] } "Engineer" = true
    ∧ experience_allowed searchLit { titles_must_include_all := ["c#"] }
        "Engineer" "Needs C# experience" = true
    ∧ location_allowed { titles_must_include_all := ["c#"] } "" = true
    ∧ matches_keywords searchLit { any_pats := ["engineer"] }
        "Engineer" "Needs C# experience" = true
    ∧ title_includes searchLit { titles_must_include_all := ["c#"] } "Engineer" = false
    ∧ passes_all_filters searchLit
        { filters := { titles_must_include_all := ["c#"] },
          keywords := { any_pats := ["engineer"] } }
        { title := "Engineer", desc := "Needs C# experience" } = false := by
  decide

/-- C7 (amended): the tech-stack gate is evaluated over the title alone: a
posting can pass the chain only if every `titles_must_include_all` pattern is
found in the title and, when the "any" list `titles_must_include` is non-empty,
at least one of its patterns matches the title. -/
theorem C7_title_gate (search : String → String → Bool) (conf : Conf)
    (job : JWJob) (h : passes_all_filters search conf job = true) :
    (conf.filters.titles_must_include_all.all fun p => search p job.title) = true
    ∧ (conf.filters.titles_must_include ≠ [] →
        (conf.filters.titles_must_include.any fun p => search p job.title) = true) := by
  have ht : title_includes search conf.filters job.title = true := by
    by_contra hc
    simp only [Bool.not_eq_true] at hc
    rw [passes_all_filters, hc] at h
    simp at h
  rw [title_includes_eq] at ht
  simp only [Bool.and_eq_true, Bool.or_eq_true] at ht
  obtain ⟨ht1, ht2⟩ := ht
  constructor
  · rcases ht2 with h2 | h2
    · rw [List.isEmpty_iff] at h2
      simp [h2]
    · exact h2
  · intro hne
    rcases ht1 with h1 | h1
    · exact absurd (List.isEmpty_iff.mp h1) hne
    · exact h1

/-- Witness for `C7_title_gate` at a configuration and posting that pass the
whole chain. -/
theorem C7_witness :
    ((["eng"] : List String).all fun p => searchLit p "Engineer") = true
    ∧ ((["engineer"] : List String) ≠ [] →
        ((["engineer"] : List String).any fun p => searchLit p "Engineer") = true) :=
  C7_title_gate searchLit
    { filters := { titles_must_include := ["engineer"], titles_must_include_all := ["eng"] },
      keywords := { any_pats := ["c#"] } }
    { title := "Engineer", desc := "C# dev", location := "Remote" } (by decide)

/-- C8 (counterexample): the `builtin_job_bot_dummy.py` variant of the
predicate (one of the two code locations the claim cites) accepts
"20 days ago" at threshold 14, although the parsed day count 20 exceeds the
threshold — the `builtin_job_bot.py` variant rejects it.  This refutes
"accepts iff that day count is within the configured threshold" for the dummy
variant. -/
theorem C8_counterexample :
    looks_recent_dummy 14 "20 days ago" = true
    ∧ looks_recent 14 "20 days ago" = false
    ∧ spec_day_count "20 days ago" = some 20 := by
  decide

/-- C8 (amended): `builtin_job_bot.py`'s `looks_recent` accepts exactly when
the threshold is zero/disabled or every parsed day count (today/hour → 0,
"N day(s)" → N, "N week(s)" → 7N, empty/unparseable → none, treated as recent)
is within the threshold; the `_dummy` variant instead accepts every posted
text (`return True  # be lenient`). -/
theorem C8_posted_recency (d : Int) (t : String) :
    (looks_recent d t = true ↔
      (d ≤ 0 ∨ ∀ n, spec_day_count t = some n → n ≤ d))
    ∧ looks_recent_dummy d t = true := by
  constructor
  · unfold looks_recent spec_day_count
    by_cases hd : d ≤ 0
    · simp [hd]
    · by_cases he : pyLower (pyStrip t) = ""
      · simp [hd, he]
      · by_cases hth : (containsSub (pyLower (pyStrip t)) "today"
            || containsSub (pyLower (pyStrip t)) "hour") = true
        · simp [hd, he, hth]
          omega
        · simp only [Bool.or_eq_true] at hth
          push_neg at hth
          obtain ⟨hth1, hth2⟩ := hth
          cases hday : findNumBefore "day".data (pyLower (pyStrip t)).data with
          | some n => simp [hd, he, hth1, hth2, hday]
          | none =>
            cases hweek : findNumBefore "week".data (pyLower (pyStrip t)).data with
            | some n => simp [hd, he, hth1, hth2, hday, hweek]
            | none => simp [hd, he, hth1, hth2, hday, hweek]
  · simp [looks_recent_dummy]

/-- Witness for `C8_posted_recency` at a concrete threshold and posted text. -/
theorem C8_witness : looks_recent_dummy 30 "99 weeks ago" = true :=
  (C8_posted_recency 30 "99 weeks ago").2

/-- C2: the relational `is_new` holds iff the URL was never recorded and (the
normalized company is empty with the unknown-company bypass enabled, or the
company has no cooldown row, or now − last-notified is at least the cooldown
window); and in the 30-day scenario, after notifying company "C" at time 0, a
second distinct posting from "C" is rejected at day 10 and accepted at day 31.
The hypothesis states the well-formedness that `db_mark_sent` maintains: no
cooldown row for the empty company name. -/
theorem C2_is_new_cooldown (allowU : Bool) (days : Int) (db : DBState)
    (now : Int) (j : Job)
    (hwf : lookupCompany db.sent_companies "" = none) :
    (is_new_sqlite allowU days db now j = true ↔
      (db_already_sent_url db j.url = false
        ∧ ((norm_company j.company = "" ∧ allowU = true)
            ∨ lookupCompany db.sent_companies (norm_company j.company) = none
            ∨ ∃ last, lookupCompany db.sent_companies (norm_company j.company) = some last
                ∧ days * 86400 ≤ now - last)))
    ∧ is_new_sqlite true 30 (db_mark_sent {} [⟨"A", "C", "", "", "https://a", ""⟩] 0)
        (10 * 86400) ⟨"B", "C", "", "", "https://b", ""⟩ = false
    ∧ is_new_sqlite true 30 (db_mark_sent {} [⟨"A", "C", "", "", "https://a", ""⟩] 0)
        (31 * 86400) ⟨"B", "C", "", "", "https://b", ""⟩ = true := by
  refine ⟨?_, by decide, by decide⟩
  unfold is_new_sqlite db_company_recently_sent
  by_cases hu : db_already_sent_url db j.url = true
  · simp [hu]
  · simp only [Bool.not_eq_true] at hu
    by_cases hce : norm_company j.company = ""
    · by_cases ha : allowU = true
      · simp [hu, hce, ha]
      · simp only [Bool.not_eq_true] at ha
        simp [hu, hce, ha, hwf]
    · cases hl : lookupCompany db.sent_companies (norm_company j.company) with
      | none => simp [hu, hce, hl]
      | some last =>
        simp [hu, hce, hl]

/-- Witness for `C2_is_new_cooldown`: the cooldown scenario instantiated at the
store obtained from the empty store. -/
theorem C2_witness :
    is_new_sqlite true 30 (db_mark_sent {} [⟨"A", "C", "", "", "https://a", ""⟩] 0)
        (10 * 86400) ⟨"B", "C", "", "", "https://b", ""⟩ = false :=
  (C2_is_new_cooldown true 30 {} 0 ⟨"B", "C", "", "", "https://b", ""⟩ rfl).2.1

/-! ### Helper lemmas for the dedupe-store theorems -/

theorem exec_sent_jobs (d : DBState) (now : Int) (j : Job) :
    (exec_mark_one d now j).sent_jobs =
      insertOrIgnoreJob d.sent_jobs
        { url := j.url, company_norm := norm_company j.company,
          company_raw := j.company, title := j.title, sent_at := now } := by
  unfold exec_mark_one
  by_cases hc : (norm_company j.company == "") = true <;> simp [hc]

theorem db_mark_sent_cons (db : DBState) (j : Job) (js : List Job) (now : Int) :
    db_mark_sent db (j :: js) now = db_mark_sent (exec_mark_one db now j) js now := rfl

theorem url_mem_insertOrIgnore (rows : List Row) (r : Row) (u : String)
    (h : (rows.any fun x => x.url == u) = true) :
    ((insertOrIgnoreJob rows r).any fun x => x.url == u) = true := by
  unfold insertOrIgnoreJob
  by_cases hc : (rows.any fun x => x.url == r.url) = true <;> simp [hc, h]

theorem url_mem_insertOrIgnore_self (rows : List Row) (r : Row) :
    ((insertOrIgnoreJob rows r).any fun x => x.url == r.url) = true := by
  unfold insertOrIgnoreJob
  by_cases hc : (rows.any fun x => x.url == r.url) = true <;> simp [hc]

theorem url_mem_mark_mono (db : DBState) (jobs : List Job) (now : Int) (u : String)
    (h : db_already_sent_url db u = true) :
    db_already_sent_url (db_mark_sent db jobs now) u = true := by
  induction jobs generalizing db with
  | nil => exact h
  | cons j js ih =>
    rw [db_mark_sent_cons]
    refine ih _ ?_
    unfold db_already_sent_url at h ⊢
    rw [exec_sent_jobs]
    exact url_mem_insertOrIgnore _ _ _ h

theorem url_mem_mark (db : DBState) (jobs : List Job) (now : Int) :
    ∀ j ∈ jobs, db_already_sent_url (db_mark_sent db jobs now) j.url = true := by
  induction jobs generalizing db with
  | nil => intro j hj; cases hj
  | cons k ks ih =>
    intro j hj
    rcases List.mem_cons.mp hj with rfl | hj'
    · rw [db_mark_sent_cons]
      apply url_mem_mark_mono
      unfold db_already_sent_url
      rw [exec_sent_jobs]
      exact url_mem_insertOrIgnore_self _ _
    · rw [db_mark_sent_cons]
      exact ih _ j hj'

theorem lookupCompany_nil (cn : String) : lookupCompany [] cn = none := rfl

theorem lookupCompany_cons (kv : String × Int) (tl : List (String × Int))
    (cn : String) :
    lookupCompany (kv :: tl) cn =
      if kv.1 = cn then some kv.2 else lookupCompany tl cn := by
  unfold lookupCompany
  by_cases h : kv.1 = cn
  · rw [List.find?_cons_of_pos _ (by simp [h])]
    simp [h]
  · rw [List.find?_cons_of_neg _ (by simp [h])]
    simp [h]

theorem lookup_upsert (l : List (String × Int)) (c cn : String) (t : Int) :
    lookupCompany (upsertCompany l c t) cn =
      if cn = c then some t else lookupCompany l cn := by
  induction l with
  | nil =>
    unfold upsertCompany
    rw [lookupCompany_cons, lookupCompany_nil]
    by_cases h : cn = c
    · simp [h]
    · simp [h, Ne.symm h]
  | cons kv tl ih =>
    unfold upsertCompany
    by_cases hk : (kv.1 == c) = true
    · rw [beq_iff_eq] at hk
      simp only [hk, beq_self_eq_true, if_true]
      rw [lookupCompany_cons, lookupCompany_cons]
      by_cases h : cn = c
      · simp [h]
      · simp [h, hk, Ne.symm h]
    · simp only [hk, Bool.false_eq_true, if_false]
      rw [lookupCompany_cons, lookupCompany_cons, ih]
      by_cases h2 : kv.1 = cn
      · have hcn : ¬cn = c := by
          subst h2
          simpa using hk
        simp [h2, hcn]
      · simp [h2]

theorem lookup_now_exec (d : DBState) (now : Int) (j : Job) (cn : String)
    (h : lookupCompany d.sent_companies cn = some now) :
    lookupCompany (exec_mark_one d now j).sent_companies cn = some now := by
  unfold exec_mark_one
  by_cases hc : (norm_company j.company == "") = true
  · simpa [hc] using h
  · simp only [hc, Bool.false_eq_true, if_false]
    rw [lookup_upsert]
    by_cases hcn : cn = norm_company j.company <;> simp [hcn, h]

theorem lookup_now_exec_self (d : DBState) (now : Int) (j : Job)
    (h : ¬norm_company j.company = "") :
    lookupCompany (exec_mark_one d now j).sent_companies
      (norm_company j.company) = some now := by
  unfold exec_mark_one
  have hc : (norm_company j.company == "") = false := by simpa using h
  simp only [hc, Bool.false_eq_true, if_false]
  rw [lookup_upsert]
  simp

theorem lookup_now_mark_mono (db : DBState) (jobs : List Job) (now : Int)
    (cn : String) (h : lookupCompany db.sent_companies cn = some now) :
    lookupCompany (db_mark_sent db jobs now).sent_companies cn = some now := by
  induction jobs generalizing db with
  | nil => exact h
  | cons k ks ih =>
    rw [db_mark_sent_cons]
    exact ih _ (lookup_now_exec _ _ _ _ h)

theorem mark_cooldowns (db : DBState) (jobs : List Job) (now : Int) :
    ∀ j ∈ jobs, ¬norm_company j.company = "" →
      lookupCompany (db_mark_sent db jobs now).sent_companies
        (norm_company j.company) = some now := by
  induction jobs generalizing db with
  | nil => intro j hj; cases hj
  | cons k ks ih =>
    intro j hj hc
    rcases List.mem_cons.mp hj with rfl | hj'
    · rw [db_mark_sent_cons]
      exact lookup_now_mark_mono _ _ _ _ (lookup_now_exec_self _ _ _ hc)
    · rw [db_mark_sent_cons]
      exact ih _ j hj' hc

/-! ### Ordering facts for the ranker -/

theorem rankLE_total (a b : Job) : rankLE a b = true ∨ rankLE b a = true := by
  unfold rankLE
  rcases Nat.lt_trichotomy (sort_key a).1 (sort_key b).1 with h | h | h
  · left; simp [h]
  · rcases listLE_total (sort_key a).2.data (sort_key b).2.data with hs | hs
    · left; simp [h, strLE, hs]
    · right; simp [h, strLE, hs]
  · right; simp [h]

theorem rankLE_trans {a b c : Job} (hab : rankLE a b = true)
    (hbc : rankLE b c = true) : rankLE a c = true := by
  unfold rankLE at hab hbc ⊢
  simp only [Bool.or_eq_true, Bool.and_eq_true, beq_iff_eq, decide_eq_true_eq] at hab hbc ⊢
  rcases hab with h1 | ⟨h1, h1'⟩ <;> rcases hbc with h2 | ⟨h2, h2'⟩
  · left; omega
  · left; omega
  · left; omega
  · right
    refine ⟨by omega, ?_⟩
    exact listLE_trans h1' h2'

instance : IsTotal Job rankLe := ⟨fun a b => rankLE_total a b⟩

instance : IsTrans Job rankLe := ⟨fun _ _ _ hab hbc => rankLE_trans hab hbc⟩

/-- The four example postings of the ranking test, plus the fallback cases. -/
def jobToday : Job := ⟨"a", "", "", "today", "ua", ""⟩

def jobDays3 : Job := ⟨"b", "", "", "3 days ago", "ub", ""⟩

def jobWeeks2 : Job := ⟨"c", "", "", "2 weeks ago", "uc", ""⟩

def jobEmpty : Job := ⟨"d", "", "", "", "ud", ""⟩

def jobDayNoNum : Job := ⟨"z", "", "", "a day ago", "uz", ""⟩

def jobDays5 : Job := ⟨"a", "", "", "5 days ago", "ua5", ""⟩

/-- C9 (counterexample): a posted text of "a day ago" receives recency score 3
— the code's fallback for a "day" mention without a parseable count — not the
999 the claim's grammar assigns to an unparseable text, so the ranker's order
differs from the order under the claim's scores on a concrete pair. -/
theorem C9_counterexample :
    (sort_key jobDayNoNum).1 = 3
    ∧ spec_recency_score "a day ago" = 999
    ∧ rank_jobs [jobDayNoNum, jobDays5] = [jobDayNoNum, jobDays5]
    ∧ spec_rank_jobs [jobDayNoNum, jobDays5] = [jobDays5, jobDayNoNum]
    ∧ rank_jobs [jobDayNoNum, jobDays5] ≠ spec_rank_jobs [jobDayNoNum, jobDays5] := by
  decide

/-- C9 (amended): the ranker returns a permutation of its input sorted
ascending by (recency score, lowercase title), where the score follows the
code's grammar: today/hour → 0, "N day(s)" → N with fallback 3 for a "day"
mention without a count, "N week(s)" → 7N with fallback 7 for a "week" mention
without a count, otherwise (empty or unparseable) → 999.  The four example
postings "today", "3 days ago", "2 weeks ago", "" score 0, 3, 14, 999 and sort
in that ascending order. -/
theorem C9_ranker (jobs : List Job) :
    (rank_jobs jobs).Perm jobs
    ∧ List.Sorted rankLe (rank_jobs jobs)
    ∧ (sort_key jobToday).1 = 0
    ∧ (sort_key jobDays3).1 = 3
    ∧ (sort_key jobWeeks2).1 = 14
    ∧ (sort_key jobEmpty).1 = 999
    ∧ rank_jobs [jobEmpty, jobWeeks2, jobDays3, jobToday]
      = [jobToday, jobDays3, jobWeeks2, jobEmpty]
    ∧ (sort_key jobDayNoNum).1 = 3
    ∧ (sort_key { jobEmpty with posted := "next week" }).1 = 7 :=
  ⟨List.perm_insertionSort rankLe jobs, List.sorted_insertionSort rankLe jobs,
   by decide, by decide, by decide, by decide, by decide, by decide, by decide⟩

/-- A job whose URL is a plain, already-stripped string. -/
def jobT : Job := ⟨"T", "Acme", "", "", "https://jobs/1", ""⟩

/-- C3: after `mark_notified`, re-reading the persisted state reports
`is_new = false` for every identifier of the batch, on both backends: the flat
file — written in full as the sorted union of the previous set and the batch's
URLs — loads back to exactly that union, in which every batch URL is a member
(so the freshness filter drops the whole batch); and on the relational backend
every batch URL is recorded, so `is_new` is false at any later time and under
any cooldown configuration. -/
theorem C3_round_trip :
    (∀ (seen : Finset String) (jobs : List Job),
      (∀ u ∈ mark_notified_file seen jobs, pyStrip u = u ∧ u ≠ "") →
      load_seen_file (save_seen_file (mark_notified_file seen jobs))
          = mark_notified_file seen jobs
        ∧ (∀ j ∈ jobs,
            j.url ∈ load_seen_file (save_seen_file (mark_notified_file seen jobs)))
        ∧ filter_new_jobs_file
            (load_seen_file (save_seen_file (mark_notified_file seen jobs))) jobs = [])
    ∧ (∀ (seen : Finset String) (jobs : List Job),
        save_seen_file (mark_notified_file seen jobs)
          = Finset.sort strLe (seen ∪ (jobs.map Job.url).toFinset))
    ∧ (∀ (db : DBState) (jobs : List Job) (now now2 : Int) (allowU : Bool) (days : Int),
        ∀ j ∈ jobs,
          is_new_sqlite allowU days (db_mark_sent db jobs now) now2 j = false) := by
  have hload : ∀ (s : Finset String), (∀ u ∈ s, pyStrip u = u ∧ u ≠ "") →
      load_seen_file (save_seen_file s) = s := by
    intro s hs
    unfold load_seen_file save_seen_file
    have h1 : (Finset.sort strLe s).map pyStrip = Finset.sort strLe s := by
      have hcong : ∀ a ∈ Finset.sort strLe s, pyStrip a = id a := fun a ha =>
        (hs a ((Finset.mem_sort strLe).mp ha)).1
      rw [List.map_congr_left hcong, List.map_id]
    rw [h1]
    have h2 : (Finset.sort strLe s).filter (fun x => x ≠ "") = Finset.sort strLe s := by
      apply List.filter_eq_self.mpr
      intro a ha
      simpa using (hs a ((Finset.mem_sort strLe).mp ha)).2
    rw [h2, Finset.sort_toFinset]
  refine ⟨?_, fun seen jobs => rfl, ?_⟩
  · intro seen jobs hs
    have hmem : ∀ j ∈ jobs, j.url ∈ mark_notified_file seen jobs := by
      intro j hj
      unfold mark_notified_file
      exact Finset.mem_union_right _ (List.mem_toFinset.mpr (List.mem_map_of_mem _ hj))
    refine ⟨hload _ hs, ?_, ?_⟩
    · intro j hj
      rw [hload _ hs]
      exact hmem j hj
    · unfold filter_new_jobs_file
      apply List.filter_eq_nil_iff.mpr
      intro j hj
      rw [hload _ hs]
      simp [hmem j hj]
  · intro db jobs now now2 allowU days j hj
    unfold is_new_sqlite
    simp [url_mem_mark db jobs now j hj]

/-- Witness for `C3_round_trip` at a singleton batch over the empty stores. -/
theorem C3_witness :
    ("https://jobs/1" : String) ∈
      load_seen_file (save_seen_file (mark_notified_file ∅ [jobT]))
    ∧ is_new_sqlite true 30 (db_mark_sent {} [jobT] 0) 999 jobT = false :=
  ⟨(C3_round_trip.1 ∅ [jobT] (by decide)).2.1 _ (List.mem_singleton.mpr rfl),
   C3_round_trip.2.2 {} [jobT] 0 999 true 30 _ (List.mem_singleton.mpr rfl)⟩

/-- C4: `db_mark_sent` is atomic.  The committed state is exactly the full
batch application, in which every posting's URL is recorded and its company's
cooldown is upserted to the batch timestamp — the cooldown step skipped exactly
when the normalized company is empty — while an interruption after any prefix
of the batch, before the single commit, leaves the persisted state unchanged. -/
theorem C4_mark_atomic (c : Conn) (jobs : List Job) (now : Int) :
    ((db_mark_sent_conn c jobs now).persisted = db_mark_sent c.pending jobs now)
    ∧ (∀ j ∈ jobs,
        db_already_sent_url (db_mark_sent_conn c jobs now).persisted j.url = true
        ∧ (¬norm_company j.company = "" →
            lookupCompany (db_mark_sent_conn c jobs now).persisted.sent_companies
              (norm_company j.company) = some now))
    ∧ (∀ (d : DBState) (j : Job), norm_company j.company = "" →
        (exec_mark_one d now j).sent_companies = d.sent_companies)
    ∧ (∀ k, (db_mark_sent_crash c jobs now k).persisted = c.persisted) := by
  refine ⟨rfl, ?_, ?_, fun k => rfl⟩
  · intro j hj
    exact ⟨url_mem_mark c.pending jobs now j hj,
           fun hc => mark_cooldowns c.pending jobs now j hj hc⟩
  · intro d j hc
    unfold exec_mark_one
    simp [hc]

/-- Witness for `C4_mark_atomic` at a singleton batch over the empty database. -/
theorem C4_witness :
    db_already_sent_url
      (db_mark_sent_conn ⟨{}, {}⟩ [jobT] 5).persisted "https://jobs/1" = true
    ∧ lookupCompany
        (db_mark_sent_conn ⟨{}, {}⟩ [jobT] 5).persisted.sent_companies
        "acme" = some 5 :=
  ⟨((C4_mark_atomic ⟨{}, {}⟩ [jobT] 5).2.1 _ (List.mem_singleton.mpr rfl)).1,
   ((C4_mark_atomic ⟨{}, {}⟩ [jobT] 5).2.1 _ (List.mem_singleton.mpr rfl)).2 (by decide)⟩

end JobWatcher

